import Mathlib

/-!
Verification development for `cemba_data/tools/clustering.py`: a shallow
embedding of the consensus-clustering engine (`_multi_leiden_clustering`,
`_kmode_on_multi_leiden`, `_multi_kmode_clustering`, `_select_optimal_k`,
`_filter_cell_and_cluster`, `leiden_kmode_clustering`,
`judge_leiden_kmode_results`) together with theorems settling the spec claims.

Conventions: machine floats of the source become rationals `ℚ`; pandas
DataFrames become lists (row order is the iteration order of the frame);
a Python `raise` becomes `Except.error`; dictionaries keyed by k become
association lists in the scan order of the dictionary.
-/

namespace Cemba

/-- One row of the `overall_df` frame built by `_select_optimal_k`
(clustering.py lines 173-182): for one candidate `k`, the bundle's
`overall_pureness`, `overall_completeness` and the number of distinct
consensus clusters (`result_dict['cluster'].unique().size`). -/
structure KSummary where
  k : Nat
  pureness : ℚ
  completeness : ℚ
  nCluster : Nat
  deriving DecidableEq, Repr

/-- The cutoff test of clustering.py lines 184-185:
`(overall_df['pureness'] > pureness_cutoff) & (overall_df['completeness'] > completeness_cutoff)`. -/
def passesCutoff (pc cc : ℚ) (e : KSummary) : Bool :=
  decide (pc < e.pureness) && decide (cc < e.completeness)

/-- `overall_df['n_cluster'].max()` of clustering.py line 182: the maximum
cluster count over all candidate rows (passing or not). -/
def nClusterMax (entries : List KSummary) : Nat :=
  (entries.map (fun e => e.nCluster)).foldr max 0

/-- The scan of clustering.py lines 186-191: append passing rows in order and
break at the first row whose `n_cluster` equals `n_cluster_max`. -/
def collectRows (m : Nat) : List KSummary → List KSummary
  | [] => []
  | e :: rest => if e.nCluster = m then [e] else e :: collectRows m rest

/-- `pass_cutoff['k'].max()` of clustering.py line 193 over the collected rows. -/
def maxK (rows : List KSummary) : Nat :=
  (rows.map (fun e => e.k)).foldr max 0

/-- `_select_optimal_k` (clustering.py lines 173-194).  The rows of
`overall_df` are given in frame order.  When no collected row exists,
`int(pass_cutoff['k'].max())` raises in pandas (empty frame has no `'k'`
column), modelled as `Except.error`. -/
def selectOptimalK (entries : List KSummary) (pc cc : ℚ) : Except String Nat :=
  let rows := collectRows (nClusterMax entries) (entries.filter (passesCutoff pc cc))
  match rows with
  | [] => Except.error "KeyError: k"
  | _ :: _ => Except.ok (maxK rows)

/-- Follows the claim's words (NOT the source): among the passing candidates,
the `k` of the first-seen row attaining the maximum cluster count, ties broken
by earliest occurrence. -/
def claimedOptimalK (entries : List KSummary) (pc cc : ℚ) : Option Nat :=
  let passRows := entries.filter (passesCutoff pc cc)
  ((passRows.find? (fun e => e.nCluster == nClusterMax passRows)).map (fun e => e.k))

/-- The per-resolution loop of `judge_leiden_kmode_results`
(clustering.py lines 291-302): `total_results[resolution]` is `None` for a
resolution whose auto-k range was empty (`None.items()` raises), otherwise
`_select_optimal_k` runs and its result is compared with the strict
`opt_k > max_opt_k` (initialised to `-1`, so the first success always wins
and ties keep the earliest resolution). -/
def judgeScanAux (pc cc : ℚ) :
    List (Nat × Option (List KSummary)) → Option (Nat × Nat) →
    Except String (Option (Nat × Nat))
  | [], best => Except.ok best
  | (_, none) :: _, _ =>
      Except.error "AttributeError: NoneType object has no attribute items"
  | (res, some entries) :: rest, best =>
      match selectOptimalK entries pc cc with
      | Except.error msg => Except.error msg
      | Except.ok optK =>
          judgeScanAux pc cc rest
            (match best with
             | none => some (res, optK)
             | some b => if b.2 < optK then some (res, optK) else some b)

/-- The resolution/k selection of `judge_leiden_kmode_results`
(clustering.py lines 291-302), over the stored `leiden_kmode_results`
mapping in `resolutions` order.  Returns the `(best_resolution, max_opt_k)`
pair handed to `_filter_cell_and_cluster`, or `none` when no best was found. -/
def judgeScan (stored : List (Nat × Option (List KSummary))) (pc cc : ℚ) :
    Except String (Option (Nat × Nat)) :=
  judgeScanAux pc cc stored none

/-- Follows the claim's words (NOT the source): the resolution whose selected
k's bundle has the strictly largest number of distinct consensus clusters. -/
def claimedBestResolution (stored : List (Nat × Option (List KSummary)))
    (pc cc : ℚ) : Option Nat :=
  let cands := stored.filterMap (fun p =>
    match p.2 with
    | none => none
    | some entries =>
        match selectOptimalK entries pc cc with
        | Except.ok k =>
            (entries.find? (fun e => e.k == k)).map (fun e => (p.1, e.nCluster))
        | Except.error _ => none)
  (cands.find? (fun q => q.2 == (cands.map (fun x => x.2)).foldr max 0)).map
    (fun q => q.1)

/-- First pair attaining the maximal second component (earliest on ties). -/
def firstArgmaxK (l : List (Nat × Nat)) : Option (Nat × Nat) :=
  l.find? (fun p => p.2 == (l.map (fun x => x.2)).foldr max 0)

/-- The strict-improvement fold performed by the `opt_k > max_opt_k`
comparison of clustering.py lines 299-302. -/
def bestFold (l : List (Nat × Nat)) (acc : Option (Nat × Nat)) :
    Option (Nat × Nat) :=
  l.foldl (fun best p =>
    match best with
    | none => some p
    | some b => if b.2 < p.2 then some p else some b) acc

/-- The `(resolution, selected k)` pairs produced by running
`_select_optimal_k` on each stored resolution, in resolution order. -/
def selectedPairs (stored : List (Nat × List KSummary)) (pc cc : ℚ) :
    List (Nat × Nat) :=
  stored.filterMap (fun p =>
    match selectOptimalK p.2 pc cc with
    | Except.ok k => some (p.1, k)
    | Except.error _ => none)

/-- A single pandas cell value appearing in `_filter_cell_and_cluster`'s
per-cell frame: a number, a boolean, a string, or `np.nan`. -/
inductive CellVal where
  | num (x : ℚ)
  | boolv (b : Bool)
  | strv (s : String)
  | nan
  deriving DecidableEq, Repr

/-- A pandas DataFrame as an ordered association list from column name to
that column's values (rows in cell order). -/
abbrev Frame : Type := List (String × List CellVal)

/-- `frame[name]`: pandas column access; a missing column raises `KeyError`. -/
def getCol (f : Frame) (name : String) : Except String (List CellVal) :=
  match List.find? (fun p => p.1 == name) f with
  | some p => Except.ok p.2
  | none => Except.error ("KeyError: " ++ name)

/-- `Series.map(mapping)`: a key absent from the mapping becomes NaN. -/
def mapSeries (m : List (Nat × ℚ)) (c : Nat) : CellVal :=
  match m.find? (fun p => p.1 == c) with
  | some p => CellVal.num p.2
  | none => CellVal.nan

def valToQ : CellVal → ℚ
  | CellVal.num x => x
  | _ => 0

def valToNat (v : CellVal) : Nat := (valToQ v).num.toNat

def valToStr : CellVal → String
  | CellVal.strv s => s
  | CellVal.num x => toString x.num
  | _ => ""

/-- The fields of the `_kmode_on_multi_leiden` result dictionary consumed by
`_filter_cell_and_cluster`: per-cell ambiguity, per-cell consensus cluster,
and the per-cluster pureness/completeness mappings. -/
structure FilterInput where
  cellAmbiguity : List ℚ
  cluster : List Nat
  clusterPureness : List (Nat × ℚ)
  clusterCompleteness : List (Nat × ℚ)
  deriving DecidableEq, Repr

/-- `_filter_cell_and_cluster` (clustering.py lines 197-229), translated
statement by statement.  The frame starts with columns `LK_cell_ambiguity`
and `LK_cluster` (lines 203-207); line 211 then reads
`cell_data['cluster']`, line 227 reads `i['cluster']` and `i['final_judge']`
row-wise — column names that were never created. -/
def filterCellAndCluster (rd : FilterInput)
    (cellAmbiguityCutoff clusterPortionCutoff : ℚ) : Except String Frame := do
  let cellData : Frame :=
    [("LK_cell_ambiguity", rd.cellAmbiguity.map CellVal.num),
     ("LK_cluster", rd.cluster.map (fun c => CellVal.num (c : ℚ)))]
  let clusterCol ← getCol cellData "cluster"
  let cellData : Frame := cellData ++
    [("LK_cluster_pureness", clusterCol.map (fun v =>
        mapSeries rd.clusterPureness (valToNat v)))]
  let clusterCol2 ← getCol cellData "cluster"
  let cellData : Frame := cellData ++
    [("LK_cluster_completeness", clusterCol2.map (fun v =>
        mapSeries rd.clusterCompleteness (valToNat v)))]
  let ambCol ← getCol cellData "LK_cell_ambiguity"
  let ambiguityJudge := ambCol.map (fun v =>
    decide (valToQ v ≤ cellAmbiguityCutoff))
  let lkClusterCol ← getCol cellData "LK_cluster"
  let passClusterVals :=
    ((lkClusterCol.zip ambiguityJudge).filter (fun p => p.2)).map (fun p => p.1)
  let passClusters := passClusterVals.dedup.filter (fun c =>
    decide ((passClusterVals.length : ℚ) * clusterPortionCutoff <
      (passClusterVals.count c : ℚ)))
  let clusterJudge := lkClusterCol.map (fun c => passClusters.contains c)
  let finalJudge := (clusterJudge.zip ambiguityJudge).map (fun p => p.1 && p.2)
  let cellData : Frame := cellData ++
    [("LK_final_judge", finalJudge.map CellVal.boolv)]
  let clusterCol3 ← getCol cellData "cluster"
  let finalCol ← getCol cellData "final_judge"
  let masked := (clusterCol3.zip finalCol).map (fun p =>
    if p.2 == CellVal.boolv true then CellVal.strv (valToStr p.1)
    else CellVal.nan)
  let cellData : Frame := cellData ++ [("LK_masked_cluster", masked)]
  return cellData

/-- Modelled from the spec: the seed drawing of clustering.py lines 24-25,
`np.random.seed(seed_of_seeds)` followed by
`np.random.choice(range(99999), size=n, replace=False)`.  The numpy
generator is outside this repository; per the spec the `n` seeds are drawn
without replacement from the bounded range `[0, 99999)`, deterministically
from the seed-of-seeds and before any parallel work starts.  We model it as
a deterministic draw producing `n` values from that range. -/
def drawSeeds (seedOfSeeds n : Nat) : List Nat :=
  (List.range n).map (fun i => (seedOfSeeds + i) % 99999)

/-- Fuelled chunking recursion (fuel bounds the list length). -/
def chunkListAux : Nat → List Nat → Nat → List (List Nat)
  | 0, _, _ => []
  | _ + 1, [], _ => []
  | fuel + 1, l, step => l.take step :: chunkListAux fuel (l.drop step) step

/-- `random_state_chunks` of clustering.py lines 26-27: with
`step = max(int(n/cpu), 5)`, the contiguous chunks
`random_states[i : min(i + step, n)]` for `i in range(0, n, step)`. -/
def chunkList (l : List Nat) (step : Nat) : List (List Nat) :=
  chunkListAux l.length l step

/-- `_multi_leiden_clustering` (clustering.py lines 10-67) with the leiden
call abstracted as a deterministic `labelOf` function giving one label
vector per seed (the columns `_single_leiden` returns for its chunk, keyed
by seed).  Seeds are drawn up front and split into contiguous chunks; each
worker produces its chunk's columns in seed order; the coordinator appends
chunk results in worker completion order (`results.append` under
`as_completed`, line 61) and concatenates them
(`pd.concat(results, axis=1, sort=True)`, line 65 — `sort=True` sorts the
row index, not the columns).  `completionOrder` lists the chunk indices in
arrival order. -/
def multiLeidenColumns (labelOf : Nat → List Nat) (n seedOfSeeds cpu : Nat)
    (completionOrder : List Nat) : List (Nat × List Nat) :=
  let seeds := drawSeeds seedOfSeeds n
  let step := max (n / cpu) 5
  let chunks := chunkList seeds step
  ((completionOrder.filterMap (fun i => chunks.get? i)).map
    (fun chunk => chunk.map (fun t => (t, labelOf t)))).flatten

/-- The per-resolution ensemble built by `leiden_kmode_clustering`
(clustering.py line 242): the driver calls
`_multi_leiden_clustering(adata, cpu=cpu, n=300, resolution=_resolution)` —
`n` is the literal `300` and `seed_of_seeds` is left at its default `0`;
the `leiden_repeats` argument is not passed down. -/
def leidenEnsembleColumns (labelOf : Nat → List Nat)
    (leidenRepeats cpu : Nat) (completionOrder : List Nat) :
    List (Nat × List Nat) :=
  multiLeidenColumns labelOf 300 0 cpu completionOrder

/-- Least value of maximal multiplicity: the first row of pandas
`DataFrame.mode()` per column — modal values are sorted ascending and
`.T.iloc[:, 0]` keeps the first — as used at clustering.py line 96. -/
def statMode (l : List Nat) : Nat :=
  (l.dedup.foldl (fun best x =>
    match best with
    | none => some x
    | some b =>
        if l.count b < l.count x ∨ (l.count x = l.count b ∧ x < b) then some x
        else some b) none).getD 0

/-- `i.cat.categories.size`: the number of distinct labels in a run column. -/
def nDistinct (col : List Nat) : Nat := col.dedup.length

/-- The maximal multiplicity of a value in `l`. -/
def maxMultiplicity (l : List Nat) : Nat :=
  (l.dedup.map (fun x => l.count x)).foldr max 0

/-- `int(series.mode())` as called at clustering.py lines 146 and 243:
pandas `Series.mode()` returns *all* values of maximal multiplicity
(sorted ascending), and `int()` of a Series succeeds only when the Series
has exactly one element, raising `TypeError` otherwise.  So the call
yields the unique modal value, and raises whenever the mode is tied (or
the series is empty). -/
def intSeriesMode (l : List Nat) : Except String Nat :=
  match l.dedup.filter (fun x => l.count x == maxMultiplicity l) with
  | [m] => Except.ok m
  | _ => Except.error "TypeError: cannot convert the series to int"

/-- `mode_k` of clustering.py lines 146 and 243:
`int(results.apply(lambda i: i.cat.categories.size, axis=0).mode())` —
the `int()` of the statistical mode, over the run columns, of the number
of distinct categories per column; raises on a tied mode. -/
def modeKE (cols : List (List Nat)) : Except String Nat :=
  intSeriesMode (cols.map nDistinct)

/-- The `'auto'` candidate window of `_multi_kmode_clustering`
(clustering.py line 147) for a successfully computed `mode_k`:
`list(range(max(2, mode_k - 5), mode_k + 15))`. -/
def lowLevelWindow (mk : Nat) : List Nat :=
  List.range' (max 2 (mk - 5)) ((mk + 15) - max 2 (mk - 5))

/-- The `'auto'` branch of `_multi_kmode_clustering` (clustering.py lines
144-147): compute `mode_k` (which may raise on a tie), then the window. -/
def lowLevelKsE (cols : List (List Nat)) : Except String (List Nat) :=
  match modeKE cols with
  | Except.error msg => Except.error msg
  | Except.ok mk => Except.ok (lowLevelWindow mk)

/-- Python `range(a, b, s)` for a positive step `s`. -/
def rangeStep (a b s : Nat) : List Nat :=
  List.range' a ((b - a + s - 1) / s) s

/-- The `'auto'` candidate window of `leiden_kmode_clustering`
(clustering.py lines 236-246) for a successfully computed `mode_k`:
`hard_k_min = 5`, `hard_k_max = int(n_cells / 50)`, and
`list(range(max(mode_k - 10, hard_k_min), min(int(mode_k * 2), hard_k_max), 2))`. -/
def topLevelWindow (nCells mk : Nat) : List Nat :=
  rangeStep (max (mk - 10) 5) (min (mk * 2) (nCells / 50)) 2

/-- Lines 243-253 of clustering.py, per resolution: `mode_k` is computed
first and its `int()` may raise on a tied mode; otherwise an empty auto
window prints a diagnostic, records `total_results[_resolution] = None`
and `continue`s, and a nonempty window is swept. -/
def perResolutionKsE (nCells : Nat) (cols : List (List Nat)) :
    Except String (Option (List Nat)) :=
  match modeKE cols with
  | Except.error msg => Except.error msg
  | Except.ok mk =>
      if (topLevelWindow nCells mk).length = 0 then Except.ok none
      else Except.ok (some (topLevelWindow nCells mk))

/-- The per-resolution loop of `leiden_kmode_clustering` under the `'auto'`
policy: one recorded outcome per resolution's ensemble, in order.  A null
recording does not abort the remaining resolutions, but an exception (the
tied-mode `TypeError`) propagates and aborts the whole sweep. -/
def leidenKmodeSweepE (nCells : Nat) :
    List (List (List Nat)) → Except String (List (Option (List Nat)))
  | [] => Except.ok []
  | cols :: rest =>
      match perResolutionKsE nCells cols with
      | Except.error msg => Except.error msg
      | Except.ok r =>
          match leidenKmodeSweepE nCells rest with
          | Except.error msg => Except.error msg
          | Except.ok rs => Except.ok (r :: rs)

/-- Ratio of two counts as pandas computes it in float arithmetic; in `ℚ`
the (unreachable in the source) `b = 0` case yields `0`. -/
def natFrac (a b : Nat) : ℚ := (a : ℚ) / (b : ℚ)

/-- The rows of the label matrix assigned to consensus cluster `c` by
`km.fit_predict` (`results.groupby(final_cluster)`, clustering.py line 95):
`clusters` is the per-cell assignment, in cell order. -/
def subRows (rows : List (List Nat)) (clusters : List Nat) (c : Nat) :
    List (List Nat) :=
  ((rows.zip clusters).filter (fun p => p.2 == c)).map (fun p => p.1)

/-- Run column `j` of a label matrix (cells in row order). -/
def colOf (rows : List (List Nat)) (j : Nat) : List Nat :=
  rows.map (fun r => r.getD j 0)

/-- `all_modes[col_name]` (clustering.py line 96): the per-column modal
label of the cluster's rows — `DataFrame.mode()` keeps its first (least)
row via `.T.iloc[:, 0]`. -/
def colMode (sub : List (List Nat)) (j : Nat) : Nat := statMode (colOf sub j)

/-- Pureness contribution of one run column (clustering.py lines 104-106):
`(sub_df[col] == mode).sum() / sub_rows`. -/
def colPureness (sub : List (List Nat)) (j : Nat) : ℚ :=
  natFrac ((colOf sub j).count (colMode sub j)) sub.length

/-- Completeness contribution of one run column (clustering.py lines
109-111): `(sub_df[col] == mode).sum() / (results[col] == mode).sum()`. -/
def colCompleteness (rows sub : List (List Nat)) (j : Nat) : ℚ :=
  natFrac ((colOf sub j).count (colMode sub j))
    ((colOf rows j).count (colMode sub j))

/-- Cluster-level pureness (clustering.py line 113): the mean of the
per-column contributions over all `ncols` run columns. -/
def clusterPureness (rows : List (List Nat)) (clusters : List Nat)
    (ncols c : Nat) : ℚ :=
  ((List.range ncols).map (colPureness (subRows rows clusters c))).sum /
    (ncols : ℚ)

/-- Cluster-level completeness (clustering.py line 114). -/
def clusterCompleteness (rows : List (List Nat)) (clusters : List Nat)
    (ncols c : Nat) : ℚ :=
  ((List.range ncols).map
    (colCompleteness rows (subRows rows clusters c))).sum / (ncols : ℚ)

/-- One cluster's weighting fraction
(`final_cluster.value_counts() / final_cluster.size`, clustering.py
line 123). -/
def clusterPortion (clusters : List Nat) (c : Nat) : ℚ :=
  natFrac (clusters.count c) clusters.length

/-- The sum of the weighting fractions over the distinct clusters. -/
def portionSum (clusters : List Nat) : ℚ :=
  (clusters.dedup.map (clusterPortion clusters)).sum

/-- `overall_pureness` (clustering.py lines 124-125): cluster pureness
weighted by cluster fraction, summed over the distinct clusters. -/
def overallPureness (rows : List (List Nat)) (clusters : List Nat)
    (ncols : Nat) : ℚ :=
  (clusters.dedup.map (fun c =>
    clusterPureness rows clusters ncols c * clusterPortion clusters c)).sum

/-- `overall_completeness` (clustering.py lines 126-127). -/
def overallCompleteness (rows : List (List Nat)) (clusters : List Nat)
    (ncols : Nat) : ℚ :=
  (clusters.dedup.map (fun c =>
    clusterCompleteness rows clusters ncols c * clusterPortion clusters c)).sum

/-- `(row == all_modes).sum()` for cell `i` (clustering.py line 117): the
number of run columns where the cell's label equals its own cluster's
per-column modal label. -/
def matchCount (rows : List (List Nat)) (clusters : List Nat)
    (ncols i : Nat) : Nat :=
  ((List.range ncols).filter (fun j =>
    (rows.getD i []).getD j 0 ==
      colMode (subRows rows clusters (clusters.getD i 0)) j)).length

/-- Per-cell ambiguity (clustering.py lines 117-118):
`1 - (row == all_modes).sum() / ncols`. -/
def cellAmbiguity (rows : List (List Nat)) (clusters : List Nat)
    (ncols i : Nat) : ℚ :=
  1 - natFrac (matchCount rows clusters ncols i) ncols

lemma collectRows_of_find_none (m : Nat) :
    ∀ l : List KSummary, l.find? (fun x => x.nCluster == m) = none →
      collectRows m l = l := by
  intro l
  induction l with
  | nil => intro _; rfl
  | cons a rest ih =>
      intro h
      rw [List.find?_eq_none] at h
      have ha : a.nCluster ≠ m := by
        have := h a (List.mem_cons_self a rest)
        simpa using this
      have hrest : rest.find? (fun x => x.nCluster == m) = none :=
        List.find?_eq_none.mpr (fun x hx => h x (List.mem_cons_of_mem a hx))
      simp [collectRows, ha, ih hrest]

lemma collectRows_ne_nil (m : Nat) (l : List KSummary) (h : l ≠ []) :
    collectRows m l ≠ [] := by
  cases l with
  | nil => exact absurd rfl h
  | cons a rest =>
      by_cases ha : a.nCluster = m <;> simp [collectRows, ha]

lemma maxK_cons (a : KSummary) (l : List KSummary) :
    maxK (a :: l) = max a.k (maxK l) := by
  simp [maxK]

lemma maxK_collect_of_find_some (m : Nat) :
    ∀ l : List KSummary, l.Pairwise (fun a b => a.k < b.k) →
    ∀ e, l.find? (fun x => x.nCluster == m) = some e →
      maxK (collectRows m l) = e.k := by
  intro l
  induction l with
  | nil => intro _ e h; simp [List.find?] at h
  | cons a rest ih =>
      intro hp e hfind
      rcases List.pairwise_cons.mp hp with ⟨hak, hrest⟩
      by_cases ha : a.nCluster = m
      · rw [List.find?_cons_of_pos _ (by simpa using ha)] at hfind
        have : a = e := by simpa using hfind
        subst this
        simp [collectRows, ha, maxK_cons, maxK]
      · rw [List.find?_cons_of_neg _ (by simpa using ha)] at hfind
        have hek := ih hrest e hfind
        have hmem : e ∈ rest := List.mem_of_find?_eq_some hfind
        have hlt : a.k < e.k := hak e hmem
        simp [collectRows, ha, maxK_cons, hek, Nat.max_eq_right (Nat.le_of_lt hlt)]

/-- **C1.** Amended characterization of `_select_optimal_k`: with the candidate
rows scanned in ascending-`k` order, if some passing row reaches the maximum
cluster count over all candidates then the selector returns the `k` of the
first such passing row; if passing rows exist but none reaches that maximum,
it returns the largest passing `k` regardless of cluster counts (not the `k`
of the first-seen maximum cluster count among passing rows). -/
theorem select_optimal_k_scan_characterization
    (entries : List KSummary) (pc cc : ℚ)
    (hsort : (entries.filter (passesCutoff pc cc)).Pairwise
      (fun a b => a.k < b.k)) :
    (∀ e, (entries.filter (passesCutoff pc cc)).find?
        (fun x => x.nCluster == nClusterMax entries) = some e →
      selectOptimalK entries pc cc = Except.ok e.k)
    ∧ ((entries.filter (passesCutoff pc cc)).find?
        (fun x => x.nCluster == nClusterMax entries) = none →
      entries.filter (passesCutoff pc cc) ≠ [] →
      selectOptimalK entries pc cc =
        Except.ok (maxK (entries.filter (passesCutoff pc cc)))) := by
  constructor
  · intro e hfind
    have hne : entries.filter (passesCutoff pc cc) ≠ [] := by
      intro h
      rw [h] at hfind
      simp [List.find?] at hfind
    have hcr := collectRows_ne_nil (nClusterMax entries) _ hne
    have hmax := maxK_collect_of_find_some (nClusterMax entries) _ hsort e hfind
    unfold selectOptimalK
    cases hc : collectRows (nClusterMax entries)
        (entries.filter (passesCutoff pc cc)) with
    | nil => exact absurd hc hcr
    | cons x xs =>
        rw [hc] at hmax
        simp [hmax]
  · intro hfind hne
    have hcoll := collectRows_of_find_none (nClusterMax entries) _ hfind
    have hcr := collectRows_ne_nil (nClusterMax entries) _ hne
    unfold selectOptimalK
    cases hc : collectRows (nClusterMax entries)
        (entries.filter (passesCutoff pc cc)) with
    | nil => exact absurd hc hcr
    | cons x xs =>
        rw [hc] at hcoll
        simp [hcoll]

/-- **C1 witness.** On a concrete ascending-`k` passing row the amended
characterization evaluates: the single passing row reaches the maximum, so
the selector returns its `k`. -/
theorem select_optimal_k_scan_characterization_witness :
    selectOptimalK [⟨2, 1, 1, 3⟩] 0 0 = Except.ok 2 :=
  (select_optimal_k_scan_characterization [⟨2, 1, 1, 3⟩] 0 0
    (by simp [passesCutoff])).1 ⟨2, 1, 1, 3⟩ (by rfl)

/-- **C1 counterexample.** With candidates scanned in ascending `k` order,
rows `(k=2, nCluster=5)` and `(k=4, nCluster=3)` pass the cutoffs while
`(k=6, nCluster=10)` fails them; no passing row reaches the all-candidate
maximum cluster count `10`, so the source returns the largest passing `k`,
`4`, whereas the claim's rule (first-seen maximum cluster count among the
passing candidates) names `k = 2`. -/
theorem select_optimal_k_first_max_counterexample :
    selectOptimalK [⟨2, 1, 1, 5⟩, ⟨4, 1, 1, 3⟩, ⟨6, 0, 0, 10⟩] 0 0
      = Except.ok 4
    ∧ claimedOptimalK [⟨2, 1, 1, 5⟩, ⟨4, 1, 1, 3⟩, ⟨6, 0, 0, 10⟩] 0 0
      = some 2
    ∧ (4 : Nat) ≠ 2 :=
  ⟨rfl, rfl, by decide⟩

/-- **C2.** When no candidate `k` passes both cutoffs at any stored
resolution, `judge_leiden_kmode_results` does not report the failure and
return normally: `_select_optimal_k` raises on the empty passing frame
(`int(pass_cutoff['k'].max())` with no `'k'` column), so the judge raises at
the first resolution scanned — the `if opt_k is not None` guard and the
descriptive no-result message of clustering.py lines 299 and 315-318 are
unreachable. -/
theorem judge_raises_when_no_k_passes
    (stored : List (Nat × Option (List KSummary))) (pc cc : ℚ)
    (hne : stored ≠ [])
    (hall : ∀ p ∈ stored, ∃ entries, p.2 = some entries ∧
      entries.filter (passesCutoff pc cc) = []) :
    judgeScan stored pc cc = Except.error "KeyError: k" := by
  cases stored with
  | nil => exact absurd rfl hne
  | cons p rest =>
      obtain ⟨entries, hsome, hfilter⟩ := hall p (List.mem_cons_self p rest)
      obtain ⟨res, ob⟩ := p
      have hob : ob = some entries := hsome
      subst hob
      have hsel : selectOptimalK entries pc cc = Except.error "KeyError: k" := by
        unfold selectOptimalK
        rw [hfilter]
        rfl
      show judgeScanAux pc cc ((res, some entries) :: rest) none = _
      simp [judgeScanAux, hsel]

/-- **C2 witness.** A single stored resolution whose only candidate has
pureness and completeness `0` (cutoffs `1`): the judge raises. -/
theorem judge_raises_when_no_k_passes_witness :
    judgeScan [(1, some [⟨2, 0, 0, 1⟩])] 1 1 = Except.error "KeyError: k" :=
  judge_raises_when_no_k_passes [(1, some [⟨2, 0, 0, 1⟩])] 1 1
    (List.cons_ne_nil _ _)
    (by
      intro p hp
      have hp' : p = (1, some [⟨2, 0, 0, 1⟩]) := by simpa using hp
      subst hp'
      exact ⟨[⟨2, 0, 0, 1⟩], rfl, rfl⟩)

lemma firstArgmaxK_cons (q : Nat × Nat) (l : List (Nat × Nat)) :
    firstArgmaxK (q :: l) =
      if (l.map (fun x => x.2)).foldr max 0 ≤ q.2 then some q
      else firstArgmaxK l := by
  unfold firstArgmaxK
  by_cases h : (l.map (fun x => x.2)).foldr max 0 ≤ q.2
  · have hmax : (((q :: l).map (fun x => x.2)).foldr max 0) = q.2 := by
      simp [Nat.max_eq_left h]
    rw [hmax]
    simp [h, List.find?_cons_of_pos]
  · have hlt : q.2 < (l.map (fun x => x.2)).foldr max 0 := Nat.lt_of_not_le h
    have hmax : (((q :: l).map (fun x => x.2)).foldr max 0) =
        (l.map (fun x => x.2)).foldr max 0 := by
      simp [Nat.max_eq_right (Nat.le_of_lt hlt)]
    rw [hmax]
    rw [List.find?_cons_of_neg _ (by simpa using Nat.ne_of_lt hlt)]
    simp [h]

lemma bestFold_some (l : List (Nat × Nat)) : ∀ b : Nat × Nat,
    bestFold l (some b) =
      if (l.map (fun x => x.2)).foldr max 0 ≤ b.2 then some b
      else firstArgmaxK l := by
  induction l with
  | nil => intro b; simp [bestFold, firstArgmaxK]
  | cons q l' ih =>
      intro b
      rw [firstArgmaxK_cons]
      by_cases hbq : b.2 < q.2
      · have hstep : bestFold (q :: l') (some b) = bestFold l' (some q) := by
          simp [bestFold, hbq]
        rw [hstep, ih q]
        have hfalse : ¬ (((q :: l').map (fun x => x.2)).foldr max 0 ≤ b.2) := by
          simp only [List.map_cons, List.foldr_cons]
          omega
        simp only [hfalse, if_false]
      · have hqb : q.2 ≤ b.2 := Nat.le_of_not_lt hbq
        have hstep : bestFold (q :: l') (some b) = bestFold l' (some b) := by
          simp [bestFold, hbq]
        rw [hstep, ih b]
        have hcond : (((q :: l').map (fun x => x.2)).foldr max 0 ≤ b.2) ↔
            ((l'.map (fun x => x.2)).foldr max 0 ≤ b.2) := by
          simp only [List.map_cons, List.foldr_cons]
          omega
        by_cases h' : (l'.map (fun x => x.2)).foldr max 0 ≤ b.2
        · simp only [h', if_true, hcond.mpr h', if_true]
        · have h'' : ¬ (((q :: l').map (fun x => x.2)).foldr max 0 ≤ b.2) :=
            fun hc => h' (hcond.mp hc)
          have hql : ¬ ((l'.map (fun x => x.2)).foldr max 0 ≤ q.2) := by omega
          simp only [h', if_false, h'', if_false, hql]

lemma bestFold_eq_firstArgmaxK (l : List (Nat × Nat)) :
    bestFold l none = firstArgmaxK l := by
  cases l with
  | nil => rfl
  | cons q l' =>
      have hstep : bestFold (q :: l') none = bestFold l' (some q) := by
        simp [bestFold]
      rw [hstep, bestFold_some l' q, firstArgmaxK_cons]

lemma judgeScanAux_eq_bestFold (pc cc : ℚ) :
    ∀ (stored : List (Nat × List KSummary)) (best : Option (Nat × Nat)),
    (∀ p ∈ stored, ∃ k, selectOptimalK p.2 pc cc = Except.ok k) →
    judgeScanAux pc cc (stored.map (fun p => (p.1, some p.2))) best =
      Except.ok (bestFold (selectedPairs stored pc cc) best) := by
  intro stored
  induction stored with
  | nil => intro best _; rfl
  | cons p rest ih =>
      intro best hsel
      obtain ⟨k, hk⟩ := hsel p (List.mem_cons_self p rest)
      obtain ⟨res, entries⟩ := p
      have hpairs : selectedPairs ((res, entries) :: rest) pc cc =
          (res, k) :: selectedPairs rest pc cc := by
        simp only [selectedPairs, List.filterMap_cons]
        rw [hk]
      rw [hpairs]
      show judgeScanAux pc cc ((res, some entries) ::
        rest.map (fun p => (p.1, some p.2))) best = _
      rw [judgeScanAux]
      rw [hk]
      have hrest : ∀ p ∈ rest, ∃ k, selectOptimalK p.2 pc cc = Except.ok k :=
        fun q hq => hsel q (List.mem_cons_of_mem _ hq)
      show judgeScanAux pc cc (rest.map (fun p => (p.1, some p.2)))
          (match best with
           | none => some (res, k)
           | some b => if b.2 < k then some (res, k) else some b) = _
      rw [ih _ hrest]
      rfl

/-- **C3.** Amended: across resolutions the judge selects the pair whose
*selected k value* is strictly largest (earliest resolution on ties) — the
`opt_k > max_opt_k` comparison of clustering.py line 300 compares the k
values themselves, not the cluster counts of the selected bundles — and that
`(best_resolution, max_opt_k)` pair is the one whose bundle
`total_results[best_resolution][max_opt_k]` is handed to
`_filter_cell_and_cluster`. -/
theorem judge_picks_largest_selected_k
    (stored : List (Nat × List KSummary)) (pc cc : ℚ)
    (hsel : ∀ p ∈ stored, ∃ k, selectOptimalK p.2 pc cc = Except.ok k) :
    judgeScan (stored.map (fun p => (p.1, some p.2))) pc cc =
      Except.ok (firstArgmaxK (selectedPairs stored pc cc)) := by
  unfold judgeScan
  rw [judgeScanAux_eq_bestFold pc cc stored none hsel, bestFold_eq_firstArgmaxK]

/-- **C3 witness.** One stored resolution whose selector returns `k = 2`:
the judge returns that resolution/k pair. -/
theorem judge_picks_largest_selected_k_witness :
    judgeScan [(1, some [⟨2, 1, 1, 1⟩])] 0 0 = Except.ok (some (1, 2)) :=
  judge_picks_largest_selected_k [(1, [⟨2, 1, 1, 1⟩])] 0 0
    (by
      intro p hp
      have hp' : p = (1, [⟨2, 1, 1, 1⟩]) := by simpa using hp
      subst hp'
      exact ⟨2, rfl⟩)

/-- **C3 counterexample.** Resolution `1` selects `k = 10` whose bundle has
`3` distinct clusters; resolution `2` selects `k = 8` whose bundle has `8`
distinct clusters.  The claim (largest cluster count) names resolution `2`,
but the source compares the k values and picks resolution `1`. -/
theorem judge_largest_cluster_count_counterexample :
    judgeScan [(1, some [⟨10, 1, 1, 3⟩]), (2, some [⟨8, 1, 1, 8⟩])] 0 0
      = Except.ok (some (1, 10))
    ∧ claimedBestResolution
        [(1, some [⟨10, 1, 1, 3⟩]), (2, some [⟨8, 1, 1, 8⟩])] 0 0 = some 2
    ∧ (1 : Nat) ≠ 2 :=
  ⟨rfl, rfl, by decide⟩

lemma judgeScanAux_error_of_none (pc cc : ℚ) :
    ∀ (stored : List (Nat × Option (List KSummary)))
      (best : Option (Nat × Nat)),
    (∃ p ∈ stored, p.2 = none) →
    ∃ msg, judgeScanAux pc cc stored best = Except.error msg := by
  intro stored
  induction stored with
  | nil =>
      intro best h
      rcases h with ⟨p, hp, _⟩
      simp at hp
  | cons q rest ih =>
      intro best h
      obtain ⟨res, ob⟩ := q
      cases ob with
      | none => exact ⟨_, rfl⟩
      | some entries =>
          rcases h with ⟨p, hp, hnone⟩
          rcases List.mem_cons.mp hp with heq | hmem
          · rw [heq] at hnone
            simp at hnone
          · cases hsel : selectOptimalK entries pc cc with
            | error msg => exact ⟨msg, by rw [judgeScanAux, hsel]⟩
            | ok k =>
                obtain ⟨msg, hmsg⟩ := ih
                  (match best with
                   | none => some (res, k)
                   | some b => if b.2 < k then some (res, k) else some b)
                  ⟨p, hmem, hnone⟩
                exact ⟨msg, by rw [judgeScanAux, hsel]; exact hmsg⟩

/-- **C10.** If the stored sweep results map any listed resolution to the
null marker (recorded when that resolution's auto-k range was empty), then
`judge_leiden_kmode_results` raises while scanning — `None.items()` inside
`_select_optimal_k` (or an earlier selector failure) aborts the scan instead
of skipping that resolution and continuing with the rest. -/
theorem judge_raises_on_null_resolution
    (stored : List (Nat × Option (List KSummary))) (pc cc : ℚ)
    (h : ∃ p ∈ stored, p.2 = none) :
    ∃ msg, judgeScan stored pc cc = Except.error msg :=
  judgeScanAux_error_of_none pc cc stored none h

/-- **C10 witness.** A single stored resolution recorded as null: the judge
raises. -/
theorem judge_raises_on_null_resolution_witness :
    ∃ msg, judgeScan [(1, (none : Option (List KSummary)))] 0 0 =
      Except.error msg :=
  judge_raises_on_null_resolution [(1, none)] 0 0
    ⟨(1, none), List.mem_cons_self _ _, rfl⟩

/-- **C4.** The claim's masking property is the evident intent, but the code
cannot produce it: for every input bundle and cutoffs,
`_filter_cell_and_cluster` raises `KeyError: 'cluster'` at
`cell_data['cluster'].map(cluster_pureness)` (clustering.py line 211),
because the frame's columns are `LK_cell_ambiguity` and `LK_cluster`; no
`LK_masked_cluster` column is ever computed. -/
theorem filter_cell_and_cluster_key_error (rd : FilterInput) (ac pc : ℚ) :
    filterCellAndCluster rd ac pc = Except.error "KeyError: cluster" := rfl

lemma chunkListAux_flatten :
    ∀ (fuel : Nat) (l : List Nat) (step : Nat), 0 < step →
      l.length ≤ fuel → (chunkListAux fuel l step).flatten = l := by
  intro fuel
  induction fuel with
  | zero =>
      intro l step _ hlen
      have : l = [] := List.eq_nil_of_length_eq_zero (Nat.le_zero.mp hlen)
      subst this
      rfl
  | succ fuel ih =>
      intro l step hstep hlen
      cases l with
      | nil => rfl
      | cons a as =>
          show (List.take step (a :: as) ::
            chunkListAux fuel (List.drop step (a :: as)) step).flatten = _
          rw [List.flatten_cons]
          rw [ih (List.drop step (a :: as)) step hstep
            (by
              simp only [List.length_drop, List.length_cons] at hlen ⊢
              omega)]
          exact List.take_append_drop step (a :: as)

lemma chunkList_flatten (l : List Nat) (step : Nat) (hstep : 0 < step) :
    (chunkList l step).flatten = l :=
  chunkListAux_flatten l.length l step hstep (Nat.le_refl _)

lemma filterMap_get_range (l : List (List Nat)) :
    (List.range l.length).filterMap (fun i => l.get? i) = l := by
  induction l with
  | nil => rfl
  | cons a as ih =>
      rw [List.length_cons, List.range_succ_eq_map]
      simp only [List.filterMap_cons, List.get?_cons_zero, List.filterMap_map]
      have hfun : List.filterMap ((fun i => (a :: as).get? i) ∘ Nat.succ)
          (List.range as.length) =
          List.filterMap (fun i => as.get? i) (List.range as.length) := rfl
      rw [hfun, ih]

/-- **C6.** Amended: the drawn seed set is a pure function of
`(seed_of_seeds, n)` — drawn before chunking, hence independent of the
concurrency degree and of worker completion order — and for every
concurrency degree and every completion order (a permutation of the chunk
indices) the Label Ensemble Matrix has exactly the columns
`(seed, labelOf seed)` for those seeds, as a *permutation*; the column
*order*, however, follows chunk completion order (the `sort=True` of
`pd.concat(..., axis=1)` sorts the row index, not the columns), so the
matrix is not identical across completion orders. -/
theorem multi_leiden_columns_perm_invariant
    (labelOf : Nat → List Nat) (n seedOfSeeds cpu : Nat)
    (completionOrder : List Nat)
    (hperm : completionOrder.Perm (List.range
      (chunkList (drawSeeds seedOfSeeds n) (max (n / cpu) 5)).length)) :
    (multiLeidenColumns labelOf n seedOfSeeds cpu completionOrder).Perm
      ((drawSeeds seedOfSeeds n).map (fun t => (t, labelOf t))) := by
  unfold multiLeidenColumns
  have hchunks := hperm.filterMap (fun i =>
    (chunkList (drawSeeds seedOfSeeds n) (max (n / cpu) 5)).get? i)
  rw [filterMap_get_range] at hchunks
  have hmap := hchunks.map (fun chunk => chunk.map (fun t => (t, labelOf t)))
  have hjoin := hmap.flatten
  refine hjoin.trans ?_
  rw [← List.map_flatten]
  rw [chunkList_flatten _ _ (by positivity)]

/-- **C6 witness.** Ten seeds, two workers (two chunks of five), chunks
arriving in reverse order: the columns are a permutation of the canonical
per-seed columns. -/
theorem multi_leiden_columns_perm_invariant_witness :
    (multiLeidenColumns (fun t => [t % 2]) 10 0 2 [1, 0]).Perm
      ((drawSeeds 0 10).map (fun t => (t, [t % 2]))) :=
  multi_leiden_columns_perm_invariant (fun t => [t % 2]) 10 0 2 [1, 0]
    (by decide)

set_option maxRecDepth 10000 in
/-- **C6 counterexample.** Same seeds, same concurrency degree, the two
chunks completing in the two possible orders: the resulting column lists
differ, so the Label Ensemble Matrix (including column order) is not
identical across completion orders. -/
theorem multi_leiden_column_order_counterexample :
    multiLeidenColumns (fun t => [t]) 10 0 2 [0, 1] ≠
      multiLeidenColumns (fun t => [t]) 10 0 2 [1, 0] := by decide

set_option maxRecDepth 10000 in
/-- **C5.** The ensemble produced per resolution by
`leiden_kmode_clustering` has 300 columns for every configured
`leiden_repeats` — the driver hardcodes `n=300` at clustering.py line 242 —
so for `leiden_repeats = 100` the matrix has 300 columns, not 100. -/
theorem leiden_ensemble_columns_hardcoded_300 :
    (∀ leidenRepeats : Nat,
      (leidenEnsembleColumns (fun t => [t]) leidenRepeats 1
        (List.range 1)).length = 300)
    ∧ (leidenEnsembleColumns (fun t => [t]) 100 1 (List.range 1)).length
        ≠ 100 :=
  ⟨fun _ => rfl, by decide⟩

lemma sweepE_append (nCells : Nat) :
    ∀ (l1 l2 : List (List (List Nat))) (r1 r2 : List (Option (List Nat))),
    leidenKmodeSweepE nCells l1 = Except.ok r1 →
    leidenKmodeSweepE nCells l2 = Except.ok r2 →
    leidenKmodeSweepE nCells (l1 ++ l2) = Except.ok (r1 ++ r2) := by
  intro l1
  induction l1 with
  | nil =>
      intro l2 r1 r2 h1 h2
      have hr1 : ([] : List (Option (List Nat))) = r1 := Except.ok.inj h1
      subst hr1
      simpa using h2
  | cons c rest ih =>
      intro l2 r1 r2 h1 h2
      rw [leidenKmodeSweepE] at h1
      cases hper : perResolutionKsE nCells c with
      | error msg => rw [hper] at h1; exact absurd h1 (by simp)
      | ok a =>
          rw [hper] at h1
          cases hrest : leidenKmodeSweepE nCells rest with
          | error msg => rw [hrest] at h1; exact absurd h1 (by simp)
          | ok rs =>
              rw [hrest] at h1
              have hr1 : a :: rs = r1 := Except.ok.inj h1
              subst hr1
              show leidenKmodeSweepE nCells (c :: (rest ++ l2)) = _
              rw [leidenKmodeSweepE, hper, ih l2 rs r2 hrest h2]
              rfl

/-- **C7.** Amended: when the Series of per-column distinct-category counts
has a *unique* statistical mode `mk`, the low-level sweep's candidate
window is exactly `[max(2, mk - 5), mk + 15)`, the top-level driver's is
exactly `[max(mk - 10, 5), min(2 * mk, n_cells / 50))` with step 2, an
empty top-level window records that resolution's result as null, a
nonempty one records the window, and the sweep composes over the
surrounding resolutions without raising.  When the mode is tied,
`int(Series.mode())` raises `TypeError` instead and the whole sweep
aborts (see the counterexample). -/
theorem auto_k_ranges_unique_mode (nCells : Nat) (cols : List (List Nat))
    (mk k : Nat) (hmk : modeKE cols = Except.ok mk) :
    lowLevelKsE cols = Except.ok (lowLevelWindow mk)
    ∧ (k ∈ lowLevelWindow mk ↔ max 2 (mk - 5) ≤ k ∧ k < mk + 15)
    ∧ (k ∈ topLevelWindow nCells mk ↔
        max (mk - 10) 5 ≤ k ∧ k < min (mk * 2) (nCells / 50) ∧
          (k - max (mk - 10) 5) % 2 = 0)
    ∧ (topLevelWindow nCells mk = [] →
        perResolutionKsE nCells cols = Except.ok none)
    ∧ (topLevelWindow nCells mk ≠ [] →
        perResolutionKsE nCells cols =
          Except.ok (some (topLevelWindow nCells mk)))
    ∧ (∀ (o : Option (List Nat)) (pre post : List (List (List Nat)))
        (r1 r2 : List (Option (List Nat))),
        perResolutionKsE nCells cols = Except.ok o →
        leidenKmodeSweepE nCells pre = Except.ok r1 →
        leidenKmodeSweepE nCells post = Except.ok r2 →
        leidenKmodeSweepE nCells (pre ++ cols :: post) =
          Except.ok (r1 ++ o :: r2)) := by
  refine ⟨?_, ?_, ?_, ?_, ?_, ?_⟩
  · rw [lowLevelKsE, hmk]
  · rw [lowLevelWindow, List.mem_range'_1]
    omega
  · rw [topLevelWindow, rangeStep, List.mem_range']
    constructor
    · rintro ⟨i, hi, rfl⟩
      omega
    · rintro ⟨h1, h2, h3⟩
      refine ⟨(k - max (mk - 10) 5) / 2, ?_, ?_⟩ <;> omega
  · intro h
    simp only [perResolutionKsE, hmk]
    rw [h]
    rfl
  · intro h
    simp only [perResolutionKsE, hmk]
    rw [if_neg (fun hc => h (List.eq_nil_of_length_eq_zero hc))]
  · intro o pre post r1 r2 ho h1 h2
    have hmid : leidenKmodeSweepE nCells [cols] = Except.ok [o] := by
      rw [leidenKmodeSweepE, ho]
      rfl
    have hfirst := sweepE_append nCells pre [cols] r1 [o] h1 hmid
    have hall := sweepE_append nCells (pre ++ [cols]) post (r1 ++ [o]) r2
      hfirst h2
    rw [List.append_assoc] at hall
    simpa using hall

/-- **C7 witness.** One run column with three distinct labels and 100
cells: the distinct-count Series is `[3]`, its mode `3` is unique, the
top-level window `[5, min(6, 2))` is empty so the resolution records null,
and `7` lies in the low-level window `[2, 18)`. -/
theorem auto_k_ranges_unique_mode_witness :
    perResolutionKsE 100 [[0, 1, 2]] = Except.ok none ∧
      7 ∈ lowLevelWindow 3 :=
  ⟨(auto_k_ranges_unique_mode 100 [[0, 1, 2]] 3 0 rfl).2.2.2.1 rfl,
   (auto_k_ranges_unique_mode 100 [[0, 1, 2]] 3 7 rfl).2.1.mpr (by decide)⟩

/-- **C7 counterexample.** A two-column ensemble with distinct-category
counts `[1, 2]`: each count occurs once, so `Series.mode()` has two
entries and `int(...)` raises `TypeError` at the `mode_k` computation
(clustering.py line 243), aborting the sweep with nothing recorded —
whereas the claim says that (the top-level range being empty here for 100
cells under either tied value) the resolution's result is recorded as null
with a diagnostic and the sweep continues without raising. -/
theorem auto_k_tied_mode_counterexample :
    modeKE [[0], [0, 1]] =
      Except.error "TypeError: cannot convert the series to int"
    ∧ leidenKmodeSweepE 100 [[[0], [0, 1]]] =
      Except.error "TypeError: cannot convert the series to int"
    ∧ leidenKmodeSweepE 100 [[[0], [0, 1]]] ≠ Except.ok [none] := by
  refine ⟨rfl, rfl, ?_⟩
  intro h
  rw [show leidenKmodeSweepE 100 [[[0], [0, 1]]] =
      Except.error "TypeError: cannot convert the series to int" from rfl] at h
  exact Except.noConfusion h

lemma natFrac_nonneg (a b : Nat) : 0 ≤ natFrac a b := by
  unfold natFrac
  positivity

lemma natFrac_le_one {a b : Nat} (h : a ≤ b) : natFrac a b ≤ 1 := by
  rcases Nat.eq_zero_or_pos b with hb | hb
  · subst hb
    have ha : a = 0 := Nat.le_zero.mp h
    subst ha
    simp [natFrac]
  · rw [natFrac, div_le_one (by exact_mod_cast hb)]
    exact_mod_cast h

lemma mean_nonneg (l : List ℚ) (n : Nat) (h : ∀ x ∈ l, 0 ≤ x) :
    0 ≤ l.sum / (n : ℚ) :=
  div_nonneg (List.sum_nonneg h) (by positivity)

lemma mean_le_one (l : List ℚ) (n : Nat) (hlen : l.length = n)
    (h : ∀ x ∈ l, x ≤ 1) : l.sum / (n : ℚ) ≤ 1 := by
  rcases Nat.eq_zero_or_pos n with hn | hn
  · subst hn
    norm_num
  · rw [div_le_one (by exact_mod_cast hn)]
    have hs := List.sum_le_card_nsmul l 1 h
    rw [hlen] at hs
    simpa [nsmul_eq_mul] using hs

lemma colPureness_mem (sub : List (List Nat)) (j : Nat) :
    0 ≤ colPureness sub j ∧ colPureness sub j ≤ 1 := by
  refine ⟨natFrac_nonneg _ _, ?_⟩
  apply natFrac_le_one
  have h1 : (colOf sub j).count (colMode sub j) ≤ (colOf sub j).length :=
    List.count_le_length _ _
  have h2 : (colOf sub j).length = sub.length := by simp [colOf]
  omega

lemma subRows_sublist (rows : List (List Nat)) (clusters : List Nat) (c : Nat)
    (hlen : rows.length = clusters.length) :
    List.Sublist (subRows rows clusters c) rows := by
  have h1 : List.Sublist ((rows.zip clusters).filter (fun p => p.2 == c))
      (rows.zip clusters) := List.filter_sublist _
  have h2 := h1.map Prod.fst
  rw [List.map_fst_zip rows clusters (le_of_eq hlen)] at h2
  exact h2

lemma colCompleteness_mem (rows : List (List Nat)) (clusters : List Nat)
    (c j : Nat) (hlen : rows.length = clusters.length) :
    0 ≤ colCompleteness rows (subRows rows clusters c) j ∧
      colCompleteness rows (subRows rows clusters c) j ≤ 1 := by
  refine ⟨natFrac_nonneg _ _, ?_⟩
  apply natFrac_le_one
  have hsub :=
    (subRows_sublist rows clusters c hlen).map (fun r => r.getD j 0)
  exact hsub.count_le _

lemma clusterPureness_mem (rows : List (List Nat)) (clusters : List Nat)
    (ncols c : Nat) :
    0 ≤ clusterPureness rows clusters ncols c ∧
      clusterPureness rows clusters ncols c ≤ 1 := by
  constructor
  · apply mean_nonneg
    intro x hx
    obtain ⟨j, _, rfl⟩ := List.mem_map.mp hx
    exact (colPureness_mem _ j).1
  · apply mean_le_one _ ncols (by simp)
    intro x hx
    obtain ⟨j, _, rfl⟩ := List.mem_map.mp hx
    exact (colPureness_mem _ j).2

lemma clusterCompleteness_mem (rows : List (List Nat)) (clusters : List Nat)
    (ncols c : Nat) (hlen : rows.length = clusters.length) :
    0 ≤ clusterCompleteness rows clusters ncols c ∧
      clusterCompleteness rows clusters ncols c ≤ 1 := by
  constructor
  · apply mean_nonneg
    intro x hx
    obtain ⟨j, _, rfl⟩ := List.mem_map.mp hx
    exact (colCompleteness_mem rows clusters c j hlen).1
  · apply mean_le_one _ ncols (by simp)
    intro x hx
    obtain ⟨j, _, rfl⟩ := List.mem_map.mp hx
    exact (colCompleteness_mem rows clusters c j hlen).2

lemma portionSum_eq_one (clusters : List Nat) (hne : clusters ≠ []) :
    portionSum clusters = 1 := by
  have hlen : 0 < clusters.length := List.length_pos.mpr hne
  unfold portionSum clusterPortion natFrac
  have h1 : (clusters.dedup.map (fun c =>
      ((clusters.count c : ℚ)) / (clusters.length : ℚ))).sum
      = (clusters.dedup.map (fun c => ((clusters.count c : ℚ)) *
          ((clusters.length : ℚ))⁻¹)).sum := by
    simp [div_eq_mul_inv]
  rw [h1, List.sum_map_mul_right]
  have h2 : (clusters.dedup.map (fun c => ((clusters.count c : ℚ)))).sum
      = (((clusters.dedup.map (fun c => clusters.count c)).sum : Nat) : ℚ) := by
    rw [Nat.cast_list_sum, List.map_map]
    rfl
  rw [h2, List.sum_map_count_dedup_eq_length]
  exact mul_inv_cancel₀ (by exact_mod_cast hlen.ne')

lemma weightedSum_bounds (clusters : List Nat) (f : Nat → ℚ)
    (hf : ∀ c, 0 ≤ f c ∧ f c ≤ 1) :
    0 ≤ (clusters.dedup.map (fun c => f c * clusterPortion clusters c)).sum ∧
      (clusters.dedup.map (fun c => f c * clusterPortion clusters c)).sum ≤
        portionSum clusters := by
  constructor
  · apply List.sum_nonneg
    intro x hx
    obtain ⟨c, _, rfl⟩ := List.mem_map.mp hx
    exact mul_nonneg (hf c).1 (natFrac_nonneg _ _)
  · apply List.sum_le_sum
    intro c _
    exact mul_le_of_le_one_left (natFrac_nonneg _ _) (hf c).2

/-- **C8.** For every Result Bundle (any per-cell assignment over a
nonempty cell set): each cluster's pureness and completeness lie in
`[0, 1]`, the per-cluster weighting fractions (cluster size / N) sum to 1,
and hence `overall_pureness` and `overall_completeness` lie in `[0, 1]`. -/
theorem kmode_overall_scores_bounded (rows : List (List Nat))
    (clusters : List Nat) (ncols : Nat)
    (hlen : rows.length = clusters.length) (hne : clusters ≠ []) :
    (∀ c, (0 ≤ clusterPureness rows clusters ncols c ∧
            clusterPureness rows clusters ncols c ≤ 1)
        ∧ (0 ≤ clusterCompleteness rows clusters ncols c ∧
            clusterCompleteness rows clusters ncols c ≤ 1))
    ∧ portionSum clusters = 1
    ∧ (0 ≤ overallPureness rows clusters ncols ∧
        overallPureness rows clusters ncols ≤ 1)
    ∧ (0 ≤ overallCompleteness rows clusters ncols ∧
        overallCompleteness rows clusters ncols ≤ 1) := by
  have hP := portionSum_eq_one clusters hne
  have hpure := weightedSum_bounds clusters
    (fun c => clusterPureness rows clusters ncols c)
    (fun c => clusterPureness_mem rows clusters ncols c)
  have hcomp := weightedSum_bounds clusters
    (fun c => clusterCompleteness rows clusters ncols c)
    (fun c => clusterCompleteness_mem rows clusters ncols c hlen)
  refine ⟨fun c => ⟨clusterPureness_mem rows clusters ncols c,
    clusterCompleteness_mem rows clusters ncols c hlen⟩, hP, ?_, ?_⟩
  · exact ⟨hpure.1, by rw [overallPureness]; exact hpure.2.trans_eq hP⟩
  · exact ⟨hcomp.1, by rw [overallCompleteness]; exact hcomp.2.trans_eq hP⟩

/-- **C8 witness.** Two cells in two singleton clusters over one run
column: the weighting fractions sum to 1 and the overall pureness is in
`[0, 1]`. -/
theorem kmode_overall_scores_bounded_witness :
    portionSum [0, 1] = 1 ∧ 0 ≤ overallPureness [[0], [1]] [0, 1] 1 ∧
      overallPureness [[0], [1]] [0, 1] 1 ≤ 1 := by
  have h := kmode_overall_scores_bounded [[0], [1]] [0, 1] 1 rfl (by decide)
  exact ⟨h.2.1, h.2.2.1.1, h.2.2.1.2⟩

/-- **C9.** Per-cell ambiguity equals `1 −` (fraction of the run columns
where the cell's label equals its own cluster's per-column modal label); it
lies in `[0, 1]`, and a cell matching its cluster's mode in every run
column has ambiguity exactly `0`. -/
theorem cell_ambiguity_formula_and_bounds (rows : List (List Nat))
    (clusters : List Nat) (ncols i : Nat) :
    cellAmbiguity rows clusters ncols i =
      1 - natFrac (matchCount rows clusters ncols i) ncols
    ∧ 0 ≤ cellAmbiguity rows clusters ncols i
    ∧ cellAmbiguity rows clusters ncols i ≤ 1
    ∧ (0 < ncols →
      (∀ j < ncols, (rows.getD i []).getD j 0 =
        colMode (subRows rows clusters (clusters.getD i 0)) j) →
      cellAmbiguity rows clusters ncols i = 0) := by
  have hm : matchCount rows clusters ncols i ≤ ncols := by
    have hfil := List.length_filter_le (fun j =>
      (rows.getD i []).getD j 0 ==
        colMode (subRows rows clusters (clusters.getD i 0)) j)
      (List.range ncols)
    simpa [matchCount] using hfil
  refine ⟨rfl, ?_, ?_, ?_⟩
  · unfold cellAmbiguity
    have := natFrac_le_one hm
    linarith
  · unfold cellAmbiguity
    have := natFrac_nonneg (matchCount rows clusters ncols i) ncols
    linarith
  · intro hpos hall
    unfold cellAmbiguity
    have hfull : matchCount rows clusters ncols i = ncols := by
      unfold matchCount
      rw [List.filter_eq_self.mpr ?_]
      · exact List.length_range ncols
      · intro j hj
        have := hall j (List.mem_range.mp hj)
        simpa using this
    rw [hfull]
    unfold natFrac
    rw [div_self (by exact_mod_cast hpos.ne')]
    ring

/-- **C9 witness.** A single cell in a single cluster over one run column,
matching its cluster's mode: ambiguity is exactly `0` (and nonnegative). -/
theorem cell_ambiguity_formula_and_bounds_witness :
    cellAmbiguity [[5]] [0] 1 0 = 0 ∧ 0 ≤ cellAmbiguity [[5]] [0] 1 0 := by
  have h := cell_ambiguity_formula_and_bounds [[5]] [0] 1 0
  exact ⟨h.2.2.2 (by decide) (by decide), h.2.1⟩

/-- **C4 witness.** The `KeyError` on a concrete (empty) bundle. -/
theorem filter_cell_and_cluster_key_error_witness :
    filterCellAndCluster ⟨[], [], [], []⟩ 0 0 =
      Except.error "KeyError: cluster" :=
  filter_cell_and_cluster_key_error ⟨[], [], [], []⟩ 0 0

/-- **C5 witness.** At `leiden_repeats = 100` the per-resolution ensemble
still has 300 columns. -/
theorem leiden_ensemble_columns_hardcoded_300_witness :
    (leidenEnsembleColumns (fun t => [t]) 100 1 (List.range 1)).length
      = 300 :=
  leiden_ensemble_columns_hardcoded_300.1 100

end Cemba
